import Mathlib

set_option maxRecDepth 8000

/-!
Shallow embedding of the nexus-dashboard-mcp tool-dispatch core
(src/middleware/security.py, src/api/mcp_transport.py, src/core/mcp_server.py,
src/services/nexus_api.py, src/core/api_loader.py,
src/services/resource_group_service.py), together with proofs of the spec
claims about it.

Conventions used throughout the embedding:
- Python dicts whose keys are strings are modelled as association lists
  `List (String × v)`; `List.lookup` returns the value at the first matching
  key, which coincides with dict lookup because dict keys are unique.
- Tool-argument values are modelled as `String`; the empty string plays the
  role of a Python falsy value where the source tests truthiness.
- Async I/O effects are made explicit: the upstream HTTP client is an oracle
  function, audit writes are accumulated in a returned list, and the
  database state is passed in and returned.
-/

namespace NexusMCP

/-- Left-brace character, written via its code point. -/
def lbrace : Char := Char.ofNat 123

/-- Right-brace character, written via its code point. -/
def rbrace : Char := Char.ofNat 125

/-- Python `str.upper()` (ASCII), via a per-character map.  (The built-in
`String.toUpper` is not kernel-reducible, so the embedding spells it out.) -/
def pyUpper (s : String) : String :=
  String.mk (s.toList.map Char.toUpper)

/-- Recursive core of Python `str.replace`: replace non-overlapping
occurrences of `pat` (nonempty) left to right.  `fuel` bounds the recursion
by the input length; each step consumes at least one character. -/
def replGo (pat rep : List Char) : Nat → List Char → List Char
  | _, [] => []
  | 0, s => s
  | fuel + 1, c :: cs =>
    if pat.isPrefixOf (c :: cs) then
      rep ++ replGo pat rep fuel (List.drop pat.length (c :: cs))
    else
      c :: replGo pat rep fuel cs

/-- Python `str.replace(pat, rep)` for a nonempty pattern (the only case the
source exercises: its patterns are brace-delimited placeholder names). -/
def strReplace (s pat rep : String) : String :=
  if pat.toList.isEmpty then s
  else String.mk (replGo pat.toList rep.toList s.toList.length s.toList)

/-- Split a character list at the first occurrence of `sep`:
`some (before, after)` when present. -/
def splitFirst (sep : Char) : List Char → Option (List Char × List Char)
  | [] => none
  | c :: cs =>
    if c = sep then some ([], cs)
    else
      match splitFirst sep cs with
      | some (a, b) => some (c :: a, b)
      | none => none

/-! ## Edit-mode security middleware (src/middleware/security.py) -/

/-- `SecurityMiddleware.WRITE_METHODS`: write operations that require edit mode. -/
def WRITE_METHODS : List String := ["POST", "PUT", "DELETE", "PATCH"]

/-- `SecurityMiddleware.READ_METHODS`: read-only operations, always allowed. -/
def READ_METHODS : List String := ["GET", "HEAD", "OPTIONS"]

/-- `SecurityMiddleware.is_write_operation`: membership of the upper-cased
method in `WRITE_METHODS`. -/
def is_write_operation (method : String) : Bool :=
  WRITE_METHODS.contains (pyUpper method)

/-- `SecurityMiddleware.is_read_operation`: membership of the upper-cased
method in `READ_METHODS`. -/
def is_read_operation (method : String) : Bool :=
  READ_METHODS.contains (pyUpper method)

/-- `SecurityMiddleware.check_operation_allowed`.  The edit-mode flag that the
source reads from `SecurityConfigService.is_edit_mode_enabled` is passed in
explicitly; `operation_id` and `path` are only used for logging in the source
and are dropped.  Returns `(allowed, error_message)`. -/
def check_operation_allowed (method : String) (editMode : Bool) :
    Bool × Option String :=
  if is_read_operation (pyUpper method) then
    (true, none)
  else if is_write_operation (pyUpper method) then
    if !editMode then
      (false, some ("Edit mode required for " ++ pyUpper method ++
        " operations. Current mode: READ-ONLY. To enable write operations, " ++
        "update the security_config table in the database " ++
        "or use the Web UI to toggle edit mode."))
    else
      (true, none)
  else
    (false, some ("Unsupported HTTP method: " ++ method))

/-! ## Users and authorization (src/models/user.py, src/api/mcp_transport.py) -/

/-- The fields of `models.user.User` consumed by the authorization path:
`username`, `is_superuser`, and the ids of the clusters assigned through the
`user_clusters` relationship. -/
structure User where
  username : String
  is_superuser : Bool
  clusters : List Nat
deriving Repr, DecidableEq

/-- `User.get_allowed_cluster_ids`: the set of assigned cluster ids
(`{c.id for c in self.clusters} if self.clusters else set()`). -/
def User.get_allowed_cluster_ids (u : User) : List Nat :=
  u.clusters

/-- `User.can_access_cluster`: superusers may access every cluster; a user
with no assigned clusters is denied; otherwise membership decides. -/
def User.can_access_cluster (u : User) (cluster_id : Nat) : Bool :=
  if u.is_superuser then true
  else
    let allowed := u.get_allowed_cluster_ids
    if allowed.isEmpty then false
    else allowed.contains cluster_id

/-- `mcp_transport.AuthResult`: outcome of `validate_token`.
`allowed_operations = none` models Python `None`. -/
structure AuthResult where
  is_valid : Bool
  user : Option User
  allowed_operations : Option (List String)
  has_edit_mode : Bool
  is_legacy_token : Bool
deriving Repr, DecidableEq

/-- `mcp_transport.can_execute_tool`: legacy token or missing user context
allows everything; superusers allow everything; otherwise the tool name must
be in the (truthy, i.e. nonempty) allowed-operations set. -/
def can_execute_tool (tool_name : String) (auth : AuthResult) : Bool :=
  if auth.is_legacy_token || auth.user.isNone then true
  else
    match auth.user with
    | none => true
    | some u =>
      if u.is_superuser then true
      else
        match auth.allowed_operations with
        | some ops => !ops.isEmpty && ops.contains tool_name
        | none => false

/-- The ordered candidate parameter names `cluster_param_names` that
`validate_cluster_access` scans the tool arguments for. -/
def cluster_param_names : List String := ["cluster", "cluster_name", "clusterName"]

/-- The `for param_name in cluster_param_names: if param_name in tool_arguments`
scan: value of the first candidate key present in the argument map. -/
def firstClusterArg (tool_arguments : List (String × String)) : Option String :=
  cluster_param_names.findSome? (fun n => tool_arguments.lookup n)

/-- `mcp_transport.validate_cluster_access`.  The credential manager's
cluster table is passed as an association list from cluster name to cluster
id.  Returns `(is_allowed, error_message)`.  The source's `if not
cluster_name` truthiness test corresponds to the parameter being absent or
its value being the empty string. -/
def validate_cluster_access (user : Option User)
    (tool_arguments : List (String × String)) (is_legacy_token : Bool)
    (clusterTable : List (String × Nat)) : Bool × Option String :=
  if is_legacy_token || user.isNone then (true, none)
  else
    match user with
    | none => (true, none)
    | some u =>
      if u.is_superuser then (true, none)
      else
        match firstClusterArg tool_arguments with
        | none => (true, none)
        | some cluster_name =>
          if cluster_name = "" then (true, none)
          else
            match clusterTable.lookup cluster_name with
            | none => (false, some ("Cluster " ++ cluster_name ++ " not found"))
            | some cid =>
              if u.can_access_cluster cid then (true, none)
              else (false, some ("Access denied to cluster " ++ cluster_name))

/-! ## Dispatcher (src/core/mcp_server.py, NexusDashboardMCP.handle_call_tool) -/

/-- The fields of an entry of `NexusDashboardMCP.operations` consumed by
`handle_call_tool`: HTTP method (upper case), path template, operation id and
the tagged source API name. -/
structure Operation where
  method : String
  path : String
  operation_id : String
  api_name : String
deriving Repr, DecidableEq

/-- One `AuditLogger.log_operation` call, i.e. one persisted audit row
(src/middleware/logging.py).  `http_method` is upper-cased as in the source. -/
structure AuditEvent where
  http_method : String
  path : String
  operation_id : Option String
  request_body : Option String
  response_status : Option Nat
  response_body : Option String
  error_message : Option String
deriving Repr, DecidableEq

/-- The `log_operation(method, path, operation_id, error_message=...)` call
made on the permission-denied and upstream-failure paths. -/
def mkErrorAudit (method path operation_id msg : String) : AuditEvent :=
  { http_method := pyUpper method, path := path,
    operation_id := some operation_id, request_body := none,
    response_status := none, response_body := none,
    error_message := some msg }

/-- The `log_operation(..., request_body=..., response_status=200,
response_body=...)` call made on the upstream-success path. -/
def mkSuccessAudit (method path operation_id : String) (body : Option String)
    (resp : String) : AuditEvent :=
  { http_method := pyUpper method, path := path,
    operation_id := some operation_id, request_body := body,
    response_status := some 200, response_body := some resp,
    error_message := none }

/-- Scanner state machine equivalent to `re.findall` with the placeholder
pattern used in `handle_call_tool` and `_build_tool_from_operation`: a
left brace, one or more characters other than a right brace, then a right
brace; matches are non-overlapping, left to right.  The first argument is
`some acc` (reversed characters read so far) while inside a candidate match,
`none` outside one. -/
def findPHGo : Option (List Char) → List Char → List String
  | _, [] => []
  | none, c :: cs =>
    if c = lbrace then findPHGo (some []) cs else findPHGo none cs
  | some acc, c :: cs =>
    if c = rbrace then
      if acc.isEmpty then findPHGo none cs
      else String.mk acc.reverse :: findPHGo none cs
    else findPHGo (some (c :: acc)) cs

/-- All `{name}` placeholders of a path template, in order of occurrence. -/
def findPlaceholders (path : String) : List String :=
  findPHGo none path.toList

/-- The literal `"{param}"` pattern passed to `str.replace`. -/
def phPattern (param : String) : String :=
  String.mk [lbrace] ++ param ++ String.mk [rbrace]

/-- The `for param in path_params` substitution loop of `handle_call_tool`:
each placeholder found in the argument map is replaced (everywhere, as
`str.replace` does); the first missing one aborts with that parameter and
the full placeholder list `allParams`. -/
def substLoop (args : List (String × String)) (allParams : List String) :
    String → List String → Except (String × List String) String
  | path, [] => .ok path
  | path, p :: ps =>
    match args.lookup p with
    | some v => substLoop args allParams (strReplace path (phPattern p) v) ps
    | none => .error (p, allParams)

/-- Path-parameter substitution for a template: run `substLoop` over all of
the template's placeholders. -/
def substPathParams (path : String) (params : List String)
    (args : List (String × String)) : Except (String × List String) String :=
  substLoop args params path params

/-- The tool-name parsing at the top of `handle_call_tool`: when the name
contains an underscore, `name.split(UNDERSCORE, 1)[1]` is the operation id,
otherwise the whole name is. -/
def parsedOperationId (name : String) : String :=
  match splitFirst (Char.ofNat 95) name.toList with
  | some (_, rest) => String.mk rest
  | none => name

/-- The `next(op for op in self.operations if ...)` lookup: first operation
whose id equals the parsed operation id. -/
def findOperation (name : String) (ops : List Operation) : Option Operation :=
  ops.find? (fun op => op.operation_id = parsedOperationId name)

/-- An upstream request as handed to
`AuthMiddleware.execute_request(method, path, api_name, params, json_data)`:
the substituted path, the query parameters and the optional body argument.
(The middleware's base-path prefixing and HTTP client are behind the oracle.) -/
structure UpstreamReq where
  method : String
  path : String
  query : List (String × String)
  body : Option String
deriving Repr, DecidableEq

/-- Possible outcomes of one `handle_call_tool` run, corresponding to the
distinct `TextContent` payloads it returns. -/
inductive CallOutcome where
  | operationNotFound (operation_id : String)
  | missingPathParam (param : String) (required : List String)
  | permissionDenied (msg : String)
  | upstreamOk (resp : String)
  | upstreamErr (msg : String)
deriving Repr, DecidableEq

/-- The checks the invocation pipeline can run, in the order they appear in
an execution trace. -/
inductive CheckEvent where
  | opPerm
  | cluster
  | editGate
deriving Repr, DecidableEq

/-- Observable effects of one `handle_call_tool` run: its outcome, the audit
rows written, the number of upstream HTTP calls issued, the security checks
that ran, and the upstream request when one was issued. -/
structure CallTrace where
  outcome : CallOutcome
  audits : List AuditEvent
  upstreamCalls : Nat
  checks : List CheckEvent
  request : Option UpstreamReq
deriving Repr, DecidableEq

/-- `NexusDashboardMCP.handle_call_tool`.  The edit-mode flag and the
upstream client are explicit; `upstream req` is `Except.error msg` when
`execute_request` raises with message `msg`.  Mirrors the source order:
operation lookup, placeholder substitution, query-parameter split,
`enforce_security` (edit-mode gate, audited on denial), upstream execution
(audited on success and on failure). -/
def handle_call_tool (ops : List Operation) (editMode : Bool)
    (upstream : UpstreamReq → Except String String)
    (name : String) (args : List (String × String)) : CallTrace :=
  match findOperation name ops with
  | none =>
    { outcome := .operationNotFound (parsedOperationId name),
      audits := [], upstreamCalls := 0, checks := [], request := none }
  | some op =>
    let ps := findPlaceholders op.path
    match substPathParams op.path ps args with
    | .error pe =>
      { outcome := .missingPathParam pe.1 pe.2,
        audits := [], upstreamCalls := 0, checks := [], request := none }
    | .ok path =>
      let query := args.filter (fun kv => !ps.contains kv.1 && kv.1 != "body")
      let secu := check_operation_allowed op.method editMode
      if secu.1 then
        let body := args.lookup "body"
        let req : UpstreamReq :=
          { method := op.method, path := path, query := query, body := body }
        match upstream req with
        | .ok resp =>
          { outcome := .upstreamOk resp,
            audits := [mkSuccessAudit op.method path op.operation_id body resp],
            upstreamCalls := 1, checks := [.editGate], request := some req }
        | .error msg =>
          { outcome := .upstreamErr msg,
            audits := [mkErrorAudit op.method path op.operation_id msg],
            upstreamCalls := 1, checks := [.editGate], request := some req }
      else
        let msg := secu.2.getD ""
        { outcome := .permissionDenied msg,
          audits := [mkErrorAudit op.method path op.operation_id msg],
          upstreamCalls := 0, checks := [.editGate], request := none }

/-! ## HTTP/SSE transport (src/api/mcp_transport.py, mcp_message tools/call) -/

/-- The keyword-capable parameter names of
`NexusDashboardMCP.handle_call_tool(self, name, arguments)`, `self` aside. -/
def handle_call_tool_kwparams : List String := ["name", "arguments"]

/-- The extra keyword arguments the transport passes in
`mcp.handle_call_tool(tool_name, tool_arguments, username=..., client_ip=...)`. -/
def transport_call_kwargs : List String := ["username", "client_ip"]

/-- Python call binding for the keyword arguments of a call: every keyword
argument must name a declared parameter (the callee takes no `**kwargs`);
otherwise the call raises `TypeError` before the body runs. -/
def callBindsOk (accepted kwargs : List String) : Bool :=
  kwargs.all (fun k => accepted.contains k)

/-- Outcomes of the `tools/call` branch of `mcp_message`.  `internalError` is
the outer `except Exception` handler producing a JSON-RPC -32603 error. -/
inductive TransportOutcome where
  | missingToolName
  | permissionDenied (msg : String)
  | clusterDenied (msg : String)
  | internalError (msg : String)
  | success (call : CallOutcome)
deriving Repr, DecidableEq

/-- Observable effects of one transport-level `tools/call`: outcome, audit
rows written, upstream calls issued and checks run. -/
structure TransportTrace where
  outcome : TransportOutcome
  audits : List AuditEvent
  upstreamCalls : Nat
  checks : List CheckEvent
deriving Repr, DecidableEq

/-- The `tools/call` branch of `mcp_transport.mcp_message` after token
validation: empty tool name check, `can_execute_tool`,
`validate_cluster_access`, then the `mcp.handle_call_tool(tool_name,
tool_arguments, username=..., client_ip=...)` invocation, whose keyword
arguments must bind against `handle_call_tool`'s parameters; a binding
failure raises `TypeError`, caught by the surrounding `except Exception`. -/
def mcp_message_tools_call (auth : AuthResult)
    (clusterTable : List (String × Nat)) (ops : List Operation)
    (editMode : Bool) (upstream : UpstreamReq → Except String String)
    (tool_name : String) (tool_arguments : List (String × String)) :
    TransportTrace :=
  if tool_name = "" then
    { outcome := .missingToolName, audits := [], upstreamCalls := 0,
      checks := [] }
  else if !can_execute_tool tool_name auth then
    { outcome := .permissionDenied
        ("Permission denied: operation " ++ tool_name ++ " not allowed"),
      audits := [], upstreamCalls := 0, checks := [.opPerm] }
  else
    let vc := validate_cluster_access auth.user tool_arguments
      auth.is_legacy_token clusterTable
    if !vc.1 then
      { outcome := .clusterDenied ("Cluster access denied: " ++ vc.2.getD ""),
        audits := [], upstreamCalls := 0, checks := [.opPerm, .cluster] }
    else if callBindsOk handle_call_tool_kwparams transport_call_kwargs then
      let r := handle_call_tool ops editMode upstream tool_name tool_arguments
      { outcome := .success r.outcome, audits := r.audits,
        upstreamCalls := r.upstreamCalls,
        checks := [.opPerm, .cluster] ++ r.checks }
    else
      { outcome := .internalError
          ("TypeError: handle_call_tool got an unexpected keyword argument " ++
            "username"),
        audits := [], upstreamCalls := 0, checks := [.opPerm, .cluster] }

/-! ## Upstream client retry loop (src/services/nexus_api.py,
NexusAPIClient.request) -/

/-- What one attempt of `self.client.request` yields: an HTTP response with a
status code, or a raised exception with a message. -/
inductive ReqOutcome where
  | status (code : Nat)
  | exn (msg : String)
deriving Repr, DecidableEq

/-- How `NexusAPIClient.request` finishes: a returned response (its status
code), a raised exception message, or the implicit `None` fall-through that
Python reaches when the loop exhausts without a recorded exception. -/
inductive ReqResult where
  | ok (code : Nat)
  | raised (msg : String)
  | nothing
deriving Repr, DecidableEq

/-- Observable effects of one `NexusAPIClient.request` run: how it finished,
how many re-authentications were performed, and how many attempts were made. -/
structure ReqTrace where
  result : ReqResult
  reauths : Nat
  attempts : Nat
deriving Repr, DecidableEq

/-- The message attached to the `httpx.HTTPStatusError` that
`raise_for_status` raises for an error status code. -/
def statusErrMsg (code : Nat) : String :=
  "HTTP status error " ++ toString code

/-- `raise_for_status` raises exactly for 4xx and 5xx codes. -/
def isErrorStatus (code : Nat) : Bool :=
  400 ≤ code

/-- The `for attempt in range(max_retries)` loop of `NexusAPIClient.request`.
`responses i` is what attempt `i` yields.  `fuel` is the number of loop
iterations left (`maxRetries - attempt`); `reauths` counts `authenticate`
calls made from the 401 branch; `lastExn` is Python's `last_exception`.
A 401 on attempt 0 re-authenticates and `continue`s; any other error status
raises `HTTPStatusError`, which (like any exception from the attempt) is
retried while `attempt < max_retries - 1` and re-raised on the last attempt.
After the loop, a recorded `last_exception` is raised, else `None` returns. -/
def requestGo (responses : Nat → ReqOutcome) (maxRetries : Nat) :
    Nat → Nat → Nat → Option String → ReqTrace
  | 0, _, reauths, lastExn =>
    match lastExn with
    | some m => { result := .raised m, reauths := reauths, attempts := maxRetries }
    | none => { result := .nothing, reauths := reauths, attempts := maxRetries }
  | fuel + 1, attempt, reauths, lastExn =>
    match responses attempt with
    | .status code =>
      if code = 401 && attempt = 0 then
        requestGo responses maxRetries fuel (attempt + 1) (reauths + 1) lastExn
      else if isErrorStatus code then
        if attempt < maxRetries - 1 then
          requestGo responses maxRetries fuel (attempt + 1) reauths
            (some (statusErrMsg code))
        else
          { result := .raised (statusErrMsg code), reauths := reauths,
            attempts := attempt + 1 }
      else
        { result := .ok code, reauths := reauths, attempts := attempt + 1 }
    | .exn msg =>
      if attempt < maxRetries - 1 then
        requestGo responses maxRetries fuel (attempt + 1) reauths (some msg)
      else
        { result := .raised msg, reauths := reauths, attempts := attempt + 1 }

/-- `NexusAPIClient.request` with the per-attempt outcomes as an oracle and
`max_retries = self.settings.api_retry_attempts` explicit. -/
def NexusAPIClient.request (responses : Nat → ReqOutcome) (maxRetries : Nat) :
    ReqTrace :=
  requestGo responses maxRetries maxRetries 0 0 none

/-! ## Operation catalog builder (src/core/api_loader.py) -/

/-- The fields of an OpenAPI operation object consumed by
`APILoader.list_operations`.  (`tags` and `parameters` are copied through
unchanged by the source and omitted here.) -/
structure OperationObj where
  operationId : Option String
  summary : Option String
  description : Option String
  requestBody : Option String
deriving Repr, DecidableEq

/-- An OpenAPI path item: HTTP-method key (lower case) to operation object.
Distinct keys, as in a JSON object. -/
structure PathItem where
  ops : List (String × OperationObj)
deriving Repr, DecidableEq

/-- One entry of the list `APILoader.list_operations` returns. -/
structure ListedOperation where
  method : String
  path : String
  operation_id : String
  summary : String
  description : String
  requestBody : Option String
deriving Repr, DecidableEq

/-- The method keys `list_operations` iterates over, in source order. -/
def listedMethodKeys : List String :=
  ["get", "post", "put", "delete", "patch", "head", "options"]

/-- The method keys `count_endpoints` counts, in source order. -/
def countedMethodKeys : List String :=
  ["get", "post", "put", "delete", "patch"]

/-- The operation record `list_operations` builds for one method key of one
path item, when the key is present: method upper-cased, a missing
`operationId` synthesized as `method + UNDERSCORE + path`. -/
def emitOp (p : String) (item : PathItem) (m : String) :
    Option ListedOperation :=
  match item.ops.lookup m with
  | some obj => some
    { method := pyUpper m, path := p,
      operation_id := obj.operationId.getD (m ++ "_" ++ p),
      summary := obj.summary.getD "",
      description := obj.description.getD "",
      requestBody := obj.requestBody }
  | none => none

/-- `APILoader.list_operations` on the `paths` object of a spec: for every
path, for every method key of `listedMethodKeys` present in the path item,
emit one operation. -/
def list_operations (paths : List (String × PathItem)) : List ListedOperation :=
  (paths.map (fun pi => listedMethodKeys.filterMap (emitOp pi.1 pi.2))).flatten

/-- The `total` field of `APILoader.count_endpoints`: endpoints whose method
key is among `countedMethodKeys`. -/
def count_endpoints_total (paths : List (String × PathItem)) : Nat :=
  (paths.map (fun pi =>
    (countedMethodKeys.filter (fun m => (pi.2.ops.lookup m).isSome)).length)).sum

/-! ## Resource groups (src/core/resource_grouper.py,
src/services/resource_group_service.py) -/

/-- Lexicographic code-point comparison of character lists, the order Python
`sorted` uses on strings. -/
def charListLe : List Char → List Char → Bool
  | [], _ => true
  | _ :: _, [] => false
  | a :: as, b :: bs =>
    if a = b then charListLe as bs else decide (a.toNat < b.toNat)

/-- Python string `<=` as a Boolean. -/
def strLeB (a b : String) : Bool :=
  charListLe a.toList b.toList

/-- Keep the first occurrence of each string (set construction). -/
def nubGo (seen : List String) : List String → List String
  | [] => []
  | x :: xs =>
    if seen.contains x then nubGo seen xs else x :: nubGo (x :: seen) xs

/-- Insert into a `strLeB`-sorted list. -/
def insertStr (x : String) : List String → List String
  | [] => [x]
  | y :: ys => if strLeB x y then x :: y :: ys else y :: insertStr x ys

/-- Insertion sort by `strLeB`. -/
def sortStrings : List String → List String
  | [] => []
  | x :: xs => insertStr x (sortStrings xs)

/-- Python `sorted(set(l))` for strings. -/
def pySortedSet (l : List String) : List String :=
  sortStrings (nubGo [] l)

/-- Recursive core of Python `str.title()`: a letter after a non-letter is
upper-cased, a letter after a letter is lower-cased. -/
def pyTitleGo : Bool → List Char → List Char
  | _, [] => []
  | prevAlpha, c :: cs =>
    if c.isAlpha then
      (if prevAlpha then c.toLower else c.toUpper) :: pyTitleGo true cs
    else
      c :: pyTitleGo false cs

/-- Python `str.title()`. -/
def pyTitle (s : String) : String :=
  String.mk (pyTitleGo false s.toList)

/-- `resource_grouper.extract_resource_from_path`: strip leading and trailing
slashes, take the first slash-delimited segment, fall back to "misc" when
that segment is empty. -/
def extract_resource_from_path (path : String) : String :=
  let cs := path.toList
  let stripped :=
    ((cs.dropWhile (fun c => c = '/')).reverse.dropWhile (fun c => c = '/')).reverse
  let first := stripped.takeWhile (fun c => c ≠ '/')
  if first.isEmpty then "misc" else String.mk first

/-- The fields of `models.api_endpoint.APIEndpoint` consumed by
`generate_default_groups`. -/
structure Endpoint where
  operation_id : String
  api_name : String
  http_method : String
  path : String
deriving Repr, DecidableEq

/-- A `models.resource_group.ResourceGroup` row together with its
`ResourceGroupMapping` rows, each a pair `(operation_id, api_name)`. -/
structure RGroup where
  group_key : String
  display_name : String
  description : String
  is_enabled : Bool
  is_custom : Bool
  members : List (String × String)
deriving Repr, DecidableEq

/-- One value of the `groups_data` dict built by `generate_default_groups`. -/
structure GroupData where
  api_name : String
  resource : String
  eps : List Endpoint
deriving Repr, DecidableEq

/-- The group key `{api_name}_{resource}` of an endpoint. -/
def groupKeyOf (ep : Endpoint) : String :=
  ep.api_name ++ "_" ++ extract_resource_from_path ep.path

/-- Insert one endpoint into the insertion-ordered `groups_data` association
list, appending to the entry with its key or creating a new entry at the
end, as a Python dict does. -/
def updateGroups (key : String) (ep : Endpoint) (resource : String) :
    List (String × GroupData) → List (String × GroupData)
  | [] => [(key, { api_name := ep.api_name, resource := resource, eps := [ep] })]
  | (k, d) :: rest =>
    if k = key then (k, { d with eps := d.eps ++ [ep] }) :: rest
    else (k, d) :: updateGroups key ep resource rest

/-- The `for ep in endpoints` grouping loop of `generate_default_groups`. -/
def groupEndpoints (endpoints : List Endpoint) : List (String × GroupData) :=
  endpoints.foldl
    (fun acc ep =>
      updateGroups (groupKeyOf ep) ep (extract_resource_from_path ep.path) acc)
    []

/-- The description string built for a generated group: method summary from
`sorted(set(methods))`, operation count, resource and API names. -/
def buildDescription (d : GroupData) : String :=
  let methods := pySortedSet (d.eps.map (fun e => e.http_method))
  "Operations for " ++ d.resource ++ " resource (" ++ d.api_name ++
    " API). Contains " ++ toString d.eps.length ++ " operations (" ++
    String.intercalate ", " methods ++ ")."

/-- The `ResourceGroup` row plus mappings created for one `groups_data`
entry. -/
def mkDefaultGroup (key : String) (d : GroupData) : RGroup :=
  { group_key := key,
    display_name := pyTitle (strReplace d.resource "_" " ") ++ " (" ++
      d.api_name ++ ")",
    description := buildDescription d,
    is_enabled := true,
    is_custom := false,
    members := d.eps.map (fun e => (e.operation_id, e.api_name)) }

/-- The `for group_key, data in groups_data.items()` creation loop: a key
already present among the session's groups (pre-existing rows plus rows
added earlier in this run) is skipped, otherwise a new group is created and
counted. -/
def createGroups (existing : List RGroup) :
    List (String × GroupData) → List RGroup → Nat → List RGroup × Nat
  | [], created, cnt => (created, cnt)
  | (key, d) :: rest, created, cnt =>
    if (existing ++ created).any (fun g => g.group_key = key) then
      createGroups existing rest created cnt
    else
      createGroups existing rest (created ++ [mkDefaultGroup key d]) (cnt + 1)

/-- Result of `generate_default_groups`: the groups table after the run and
the returned created count. -/
structure GenResult where
  groups : List RGroup
  created : Nat
deriving Repr, DecidableEq

/-- `ResourceGroupService.generate_default_groups`: when not forced, the
presence of any group at all (the `select(ResourceGroup).limit(1)` check)
skips generation wholesale; otherwise endpoints are grouped by
`{api_name}_{resource}` and a group is created for each key not already
present. -/
def generate_default_groups (existing : List RGroup)
    (endpoints : List Endpoint) (force : Bool) : GenResult :=
  if !force && !existing.isEmpty then
    { groups := existing, created := 0 }
  else
    let grouped := groupEndpoints endpoints
    let res := createGroups existing grouped [] 0
    { groups := existing ++ res.1, created := res.2 }

/-! ## Supporting lemmas -/

/-- Converting a valid code point to a character and back is the identity. -/
theorem char_toNat_ofNat_valid (n : Nat) (hv : n.isValidChar) :
    (Char.ofNat n).toNat = n := by
  unfold Char.ofNat
  simp only [hv, dite_true, Char.ofNatAux]
  rfl

theorem toUpper_idem (c : Char) : c.toUpper.toUpper = c.toUpper := by
  unfold Char.toUpper
  by_cases h : c.toNat ≥ 97 ∧ c.toNat ≤ 122
  · have hv : (c.toNat - 32).isValidChar := by
      left
      omega
    have ht : (Char.ofNat (c.toNat - 32)).toNat = c.toNat - 32 :=
      char_toNat_ofNat_valid _ hv
    have h2 : ¬((Char.ofNat (c.toNat - 32)).toNat ≥ 97 ∧
        (Char.ofNat (c.toNat - 32)).toNat ≤ 122) := by
      rw [ht]
      omega
    simp only [if_pos h, if_neg h2]
  · simp only [if_neg h]

theorem pyUpper_idem (s : String) : pyUpper (pyUpper s) = pyUpper s := by
  unfold pyUpper
  have h1 : (String.mk (s.toList.map Char.toUpper)).toList
      = s.toList.map Char.toUpper := rfl
  rw [h1, List.map_map]
  have h2 : Char.toUpper ∘ Char.toUpper = Char.toUpper := funext toUpper_idem
  rw [h2]

theorem is_read_operation_pyUpper (m : String) :
    is_read_operation (pyUpper m) = is_read_operation m := by
  unfold is_read_operation
  rw [pyUpper_idem]

theorem is_write_operation_pyUpper (m : String) :
    is_write_operation (pyUpper m) = is_write_operation m := by
  unfold is_write_operation
  rw [pyUpper_idem]

theorem read_write_disjoint (m : String) (hr : is_read_operation m = true) :
    is_write_operation m = false := by
  unfold is_read_operation READ_METHODS at hr
  unfold is_write_operation WRITE_METHODS
  rw [List.contains_iff_exists_mem_beq] at hr
  rw [Bool.eq_false_iff]
  intro hw
  rw [List.contains_iff_exists_mem_beq] at hw
  rcases hr with ⟨x, hx, hbx⟩
  rcases hw with ⟨y, hy, hby⟩
  rw [beq_iff_eq] at hbx hby
  rw [hbx] at hby
  fin_cases hx <;> fin_cases hy <;> simp_all

theorem append_ne_empty_left (a b : String) (h : a ≠ "") : a ++ b ≠ "" := by
  intro hc
  apply h
  have hd : (a ++ b).data = "".data := by rw [hc]
  simp only [String.data_append] at hd
  have ha : a.data = [] := by
    cases hx : a.data with
    | nil => rfl
    | cons x xs =>
      rw [hx] at hd
      simp at hd
  cases a
  simp_all

theorem check_cases (method : String) (editMode : Bool) :
    check_operation_allowed method editMode = (true, none) ∨
    ∃ m, check_operation_allowed method editMode = (false, some m) ∧ m ≠ "" := by
  unfold check_operation_allowed
  split
  · left
    rfl
  · split
    · split
      · right
        refine ⟨_, rfl, ?_⟩
        exact append_ne_empty_left _ _ (append_ne_empty_left _ _
          (append_ne_empty_left _ _ (append_ne_empty_left _ _ (by decide))))
      · left
        rfl
    · right
      exact ⟨_, rfl, append_ne_empty_left _ _ (by decide)⟩

theorem check_msg_nonempty (method : String) (editMode : Bool)
    (h : (check_operation_allowed method editMode).1 = false) :
    ∃ m, (check_operation_allowed method editMode).2 = some m ∧ m ≠ "" := by
  rcases check_cases method editMode with heq | ⟨m, heq, hne⟩
  · rw [heq] at h
    simp at h
  · rw [heq]
    exact ⟨m, rfl, hne⟩

/-- C3: read methods are always allowed regardless of edit mode; write
methods are allowed exactly when edit mode is enabled; any other method is
denied; every denial carries a nonempty human-readable message. -/
theorem C3_read_write_gate (method : String) (editMode : Bool) :
    (is_read_operation method = true →
      check_operation_allowed method editMode = (true, none)) ∧
    (is_write_operation method = true →
      (check_operation_allowed method editMode).1 = editMode) ∧
    (is_read_operation method = false → is_write_operation method = false →
      (check_operation_allowed method editMode).1 = false) ∧
    ((check_operation_allowed method editMode).1 = false →
      ∃ m, (check_operation_allowed method editMode).2 = some m ∧ m ≠ "") := by
  refine ⟨?_, ?_, ?_, check_msg_nonempty method editMode⟩
  · intro hr
    unfold check_operation_allowed
    rw [is_read_operation_pyUpper, hr]
    simp
  · intro hw
    have hr : is_read_operation method = false := by
      cases hR : is_read_operation method with
      | false => rfl
      | true =>
        rw [read_write_disjoint method hR] at hw
        exact absurd hw (by simp)
    unfold check_operation_allowed
    rw [is_read_operation_pyUpper, is_write_operation_pyUpper, hr, hw]
    cases editMode <;> simp
  · intro hr hw
    unfold check_operation_allowed
    rw [is_read_operation_pyUpper, is_write_operation_pyUpper, hr, hw]
    simp

/-- Witness for C3 at GET (read, edit mode off) and DELETE (write, edit
mode off). -/
theorem C3_witness :
    check_operation_allowed "GET" false = (true, none) ∧
    (check_operation_allowed "DELETE" false).1 = false :=
  ⟨(C3_read_write_gate "GET" false).1 (by decide),
   (C3_read_write_gate "DELETE" false).2.1 (by decide)⟩


/-- C4: a caller authenticated as a superuser or via the legacy shared token
is never denied by the operation-permission check and never denied by the
cluster check, whatever the tool name and arguments. -/
theorem C4_superuser_legacy_never_denied (tool_name : String)
    (auth : AuthResult) (args : List (String × String))
    (clusterTable : List (String × Nat))
    (h : auth.is_legacy_token = true ∨
      ∃ u, auth.user = some u ∧ u.is_superuser = true) :
    can_execute_tool tool_name auth = true ∧
    validate_cluster_access auth.user args auth.is_legacy_token clusterTable
      = (true, none) := by
  rcases h with hleg | ⟨u, hu, hsu⟩
  · constructor
    · unfold can_execute_tool
      rw [hleg]
      simp
    · unfold validate_cluster_access
      rw [hleg]
      simp
  · cases hleg : auth.is_legacy_token with
    | true =>
      constructor
      · unfold can_execute_tool
        rw [hleg]
        simp
      · unfold validate_cluster_access
        simp
    | false =>
      constructor
      · unfold can_execute_tool
        rw [hleg, hu]
        simp [hsu]
      · unfold validate_cluster_access
        rw [hu]
        simp [hsu]

/-- Witness for C4: a concrete superuser calling a tool naming a cluster that
is not even in the cluster table. -/
theorem C4_witness :
    can_execute_tool "manage_deleteVlan"
      { is_valid := true,
        user := some { username := "root", is_superuser := true, clusters := [] },
        allowed_operations := none, has_edit_mode := true,
        is_legacy_token := false } = true ∧
    validate_cluster_access
      (some { username := "root", is_superuser := true, clusters := [] })
      [("cluster", "prod")] false [] = (true, none) :=
  C4_superuser_legacy_never_denied "manage_deleteVlan"
    { is_valid := true,
      user := some { username := "root", is_superuser := true, clusters := [] },
      allowed_operations := none, has_edit_mode := true,
      is_legacy_token := false }
    [("cluster", "prod")] [] (Or.inr ⟨_, rfl, rfl⟩)

/-- C5 (amended): a non-superuser with an empty assigned-cluster set is
denied by the cluster check whenever the first cluster-identifying parameter
present has a non-empty value, and passes when no such parameter name is
present. -/
theorem C5_empty_cluster_set (u : User) (args : List (String × String))
    (clusterTable : List (String × Nat))
    (hsu : u.is_superuser = false) (hcl : u.clusters = []) :
    (∀ v, firstClusterArg args = some v → v ≠ "" →
      (validate_cluster_access (some u) args false clusterTable).1 = false) ∧
    (firstClusterArg args = none →
      validate_cluster_access (some u) args false clusterTable = (true, none)) := by
  constructor
  · intro v hv hne
    unfold validate_cluster_access
    simp only [hsu, hv, hne, Option.isNone_some, Bool.false_or,
      Bool.false_eq_true, if_false]
    cases hlk : clusterTable.lookup v with
    | none => simp [hlk]
    | some cid =>
      simp [hlk, User.can_access_cluster, User.get_allowed_cluster_ids, hsu, hcl]
  · intro hv
    unfold validate_cluster_access
    simp [hv, hsu]

/-- Witness for C5 at a concrete user, argument maps and cluster table. -/
theorem C5_witness :
    (validate_cluster_access
      (some { username := "alice", is_superuser := false, clusters := [] })
      [("cluster", "prod")] false [("prod", 1)]).1 = false ∧
    validate_cluster_access
      (some { username := "alice", is_superuser := false, clusters := [] })
      [("id", "7")] false [("prod", 1)] = (true, none) :=
  ⟨(C5_empty_cluster_set
      { username := "alice", is_superuser := false, clusters := [] }
      [("cluster", "prod")] [("prod", 1)] rfl rfl).1 "prod" rfl (by decide),
   (C5_empty_cluster_set
      { username := "alice", is_superuser := false, clusters := [] }
      [("id", "7")] [("prod", 1)] rfl rfl).2 rfl⟩

/-- Counterexample to C5 as stated: the argument map does contain the
cluster-identifying parameter name "cluster" (with an empty value), the user
has an empty assigned-cluster set and is no superuser, yet the cluster check
allows the call. -/
theorem C5_counterexample :
    (firstClusterArg [("cluster", "")]).isSome = true ∧
    validate_cluster_access
      (some { username := "alice", is_superuser := false, clusters := [] })
      [("cluster", "")] false [("prod", 1)] = (true, none) := by decide


/-! ## Concrete fixtures for the closed theorems -/

/-- The two operations of the worked spec example: `getFabrics`
(GET /fabrics) and `deleteVlan` (DELETE /vlans/\x7bid\x7d). -/
def fixtureOps : List Operation :=
  [{ method := "GET", path := "/fabrics", operation_id := "getFabrics",
     api_name := "manage" },
   { method := "DELETE", path := "/vlans/{id}", operation_id := "deleteVlan",
     api_name := "manage" }]

/-- An upstream oracle that always succeeds with an empty JSON object. -/
def okUpstream : UpstreamReq → Except String String := fun _ => .ok "\x7b\x7d"

/-- Authentication context of a legacy shared-token caller. -/
def legacyAuth : AuthResult :=
  { is_valid := true, user := none, allowed_operations := none,
    has_edit_mode := true, is_legacy_token := true }

/-- Authentication context of a role-based user with no allowed operations
and no assigned clusters. -/
def noPermAuth : AuthResult :=
  { is_valid := true,
    user := some { username := "bob", is_superuser := false, clusters := [] },
    allowed_operations := some [], has_edit_mode := false,
    is_legacy_token := false }

/-- C2 fails on the code: the transport invokes `handle_call_tool` with
keyword arguments `username` and `client_ip` that its `(name, arguments)`
signature does not accept, so a fully permitted tools/call raises
`TypeError` and is answered with a JSON-RPC internal error — no dispatch, no
upstream call, no audit write. -/
theorem C2_transport_call_binding_fails :
    callBindsOk handle_call_tool_kwparams transport_call_kwargs = false ∧
    mcp_message_tools_call legacyAuth [] fixtureOps true okUpstream
      "manage_getFabrics" [] =
      { outcome := .internalError ("TypeError: handle_call_tool got an " ++
          "unexpected keyword argument username"),
        audits := [], upstreamCalls := 0, checks := [.opPerm, .cluster] } := by
  constructor
  · decide
  · decide

/-- Audit bookkeeping required of one `handle_call_tool` outcome: exactly
one record for edit-mode denial (written before any upstream call), upstream
success and upstream failure; none for operation-not-found or
missing-path-parameter failures. -/
def callAuditsSpec (r : CallTrace) : Prop :=
  match r.outcome with
  | .operationNotFound _ => r.audits = []
  | .missingPathParam _ _ => r.audits = []
  | .permissionDenied _ => r.audits.length = 1 ∧ r.upstreamCalls = 0
  | .upstreamOk _ => r.audits.length = 1
  | .upstreamErr _ => r.audits.length = 1

/-- Audit bookkeeping of the transport-level outcomes: denials and the
binding TypeError write no audit records at all. -/
def transportAuditsSpec (t : TransportTrace) : Prop :=
  match t.outcome with
  | .missingToolName => t.audits = []
  | .permissionDenied _ => t.audits = []
  | .clusterDenied _ => t.audits = []
  | .internalError _ => t.audits = []
  | .success _ => True

/-- C1 (amended): inside `handle_call_tool`, an edit-mode denial, an
upstream success and an upstream failure each write exactly one audit
record, and the edit-mode denial writes it with zero upstream calls made;
but the operation-not-found and missing-path-parameter failures, and every
transport-level denial (operation permission, cluster, binding TypeError),
write zero audit records. -/
theorem C1_amended_audits (ops : List Operation) (editMode : Bool)
    (upstream : UpstreamReq → Except String String) (name : String)
    (args : List (String × String)) (auth : AuthResult)
    (clusterTable : List (String × Nat)) :
    callAuditsSpec (handle_call_tool ops editMode upstream name args) ∧
    transportAuditsSpec
      (mcp_message_tools_call auth clusterTable ops editMode upstream name args) := by
  constructor
  · simp only [handle_call_tool]
    split
    · simp [callAuditsSpec]
    · split
      · simp [callAuditsSpec]
      · split
        · split
          · simp [callAuditsSpec]
          · simp [callAuditsSpec]
        · simp [callAuditsSpec]
  · simp only [mcp_message_tools_call]
    split
    · simp [transportAuditsSpec]
    · split
      · simp [transportAuditsSpec]
      · split
        · simp [transportAuditsSpec]
        · split
          · simp [transportAuditsSpec]
          · simp [transportAuditsSpec]

/-- Counterexample to C1 as stated: a transport-level operation-permission
denial is a dispatch attempt outcome the claim covers, yet it produces zero
audit records, not exactly one. -/
theorem C1_counterexample :
    (mcp_message_tools_call noPermAuth [] fixtureOps true okUpstream
      "manage_getFabrics" []).outcome =
      .permissionDenied
        "Permission denied: operation manage_getFabrics not allowed" ∧
    (mcp_message_tools_call noPermAuth [] fixtureOps true okUpstream
      "manage_getFabrics" []).audits = [] := by
  constructor
  · decide
  · decide


/-- Check ordering of the transport pipeline: the operation-permission check
runs first, then the cluster check, each denial stopping the pipeline with
no upstream call; the edit-mode gate is not among the checks the transport
itself runs. -/
def transportCheckOrderSpec (t : TransportTrace) : Prop :=
  match t.outcome with
  | .missingToolName => t.checks = [] ∧ t.upstreamCalls = 0
  | .permissionDenied _ => t.checks = [.opPerm] ∧ t.upstreamCalls = 0
  | .clusterDenied _ => t.checks = [.opPerm, .cluster] ∧ t.upstreamCalls = 0
  | .internalError _ => t.checks = [.opPerm, .cluster] ∧ t.upstreamCalls = 0
  | .success _ => True

/-- Check ordering inside `handle_call_tool`: the edit-mode gate is the only
check it runs, and an edit-mode denial makes no upstream call. -/
def callCheckOrderSpec (r : CallTrace) : Prop :=
  match r.outcome with
  | .operationNotFound _ => r.checks = [] ∧ r.upstreamCalls = 0
  | .missingPathParam _ _ => r.checks = [] ∧ r.upstreamCalls = 0
  | .permissionDenied _ => r.checks = [.editGate] ∧ r.upstreamCalls = 0
  | .upstreamOk _ => r.checks = [.editGate]
  | .upstreamErr _ => r.checks = [.editGate]

/-- C6 (amended): on the HTTP transport the authorization checks run first
— operation permission, then cluster, failing fast with no upstream call —
and the edit-mode gate runs only afterwards, inside `handle_call_tool`,
where a gate denial makes no upstream call. -/
theorem C6_amended_check_order (ops : List Operation) (editMode : Bool)
    (upstream : UpstreamReq → Except String String) (name : String)
    (args : List (String × String)) (auth : AuthResult)
    (clusterTable : List (String × Nat)) :
    transportCheckOrderSpec
      (mcp_message_tools_call auth clusterTable ops editMode upstream name args) ∧
    callCheckOrderSpec (handle_call_tool ops editMode upstream name args) := by
  constructor
  · simp only [mcp_message_tools_call]
    split
    · simp [transportCheckOrderSpec]
    · split
      · simp [transportCheckOrderSpec]
      · split
        · simp [transportCheckOrderSpec]
        · split
          · simp [transportCheckOrderSpec]
          · simp [transportCheckOrderSpec]
  · simp only [handle_call_tool]
    split
    · simp [callCheckOrderSpec]
    · split
      · simp [callCheckOrderSpec]
      · split
        · split
          · simp [callCheckOrderSpec]
          · simp [callCheckOrderSpec]
        · simp [callCheckOrderSpec]

/-- Counterexample to C6 as stated: with edit mode disabled (so the gate
would deny this DELETE) and a caller without operation permission, the trace
shows the operation-permission check ran and the edit-mode gate never ran —
the opposite of the claimed gate-first order. -/
theorem C6_counterexample :
    (mcp_message_tools_call noPermAuth [] fixtureOps false okUpstream
      "manage_deleteVlan" [("id", "10")]).checks = [CheckEvent.opPerm] ∧
    (check_operation_allowed "DELETE" false).1 = false := by
  constructor
  · decide
  · decide

/-- The substitution loop always reports the full placeholder list it was
given alongside the missing parameter. -/
theorem substLoop_error_allParams (args : List (String × String))
    (allParams : List String) :
    ∀ l path p r, substLoop args allParams path l = .error (p, r) →
      r = allParams := by
  intro l
  induction l with
  | nil =>
    intro path p r h
    simp [substLoop] at h
  | cons q qs ih =>
    intro path p r h
    unfold substLoop at h
    cases hlk : args.lookup q with
    | some v =>
      rw [hlk] at h
      exact ih _ p r h
    | none =>
      rw [hlk] at h
      cases h
      rfl

/-- C7: a missing placeholder aborts the invocation immediately — before the
security check and before any upstream call, with no audit write — listing
all of the path template placeholders as required parameters; when every
placeholder is present, each is substituted into the path and the remaining
arguments that are neither placeholders nor named "body" become the query
parameters of the upstream request. -/
theorem C7_path_placeholders (ops : List Operation) (editMode : Bool)
    (upstream : UpstreamReq → Except String String) (name : String)
    (args : List (String × String)) (op : Operation)
    (hop : findOperation name ops = some op) :
    (∀ p reqd,
      substPathParams op.path (findPlaceholders op.path) args = .error (p, reqd) →
      reqd = findPlaceholders op.path ∧
      handle_call_tool ops editMode upstream name args =
        { outcome := .missingPathParam p reqd, audits := [],
          upstreamCalls := 0, checks := [], request := none }) ∧
    (∀ path,
      substPathParams op.path (findPlaceholders op.path) args = .ok path →
      (check_operation_allowed op.method editMode).1 = true →
      (handle_call_tool ops editMode upstream name args).request =
        some { method := op.method, path := path,
               query := args.filter (fun kv =>
                 !(findPlaceholders op.path).contains kv.1 && kv.1 != "body"),
               body := args.lookup "body" }) := by
  constructor
  · intro p reqd hsub
    have hr : reqd = findPlaceholders op.path :=
      substLoop_error_allParams args (findPlaceholders op.path) _ _ _ _ hsub
    refine ⟨hr, ?_⟩
    simp only [handle_call_tool, hop, hsub]
  · intro path hsub hsec
    simp only [handle_call_tool, hop, hsub, hsec, if_true]
    split <;> rfl

/-- Witness for C7: `deleteVlan` without `id` fails listing ["id"]; with
`id`, a query argument and a body, the upstream request has the substituted
path, the query split and the body. -/
theorem C7_witness :
    handle_call_tool fixtureOps false okUpstream "manage_deleteVlan" [] =
      { outcome := .missingPathParam "id" ["id"], audits := [],
        upstreamCalls := 0, checks := [], request := none } ∧
    (handle_call_tool fixtureOps true okUpstream "manage_deleteVlan"
      [("id", "10"), ("q", "1"), ("body", "B")]).request =
      some { method := "DELETE", path := "/vlans/10",
             query := [("q", "1")], body := some "B" } := by
  constructor
  · exact ((C7_path_placeholders fixtureOps false okUpstream "manage_deleteVlan"
      [] { method := "DELETE", path := "/vlans/{id}",
           operation_id := "deleteVlan", api_name := "manage" }
      (by decide)).1 "id" ["id"] rfl).2
  · exact (C7_path_placeholders fixtureOps true okUpstream "manage_deleteVlan"
      [("id", "10"), ("q", "1"), ("body", "B")]
      { method := "DELETE", path := "/vlans/{id}",
        operation_id := "deleteVlan", api_name := "manage" }
      (by decide)).2 "/vlans/10" rfl (by decide)


/-- Once past the first attempt, the retry loop never re-authenticates
again. -/
theorem requestGo_reauths_stable (responses : Nat → ReqOutcome)
    (maxRetries : Nat) :
    ∀ fuel attempt reauths lastExn, 1 ≤ attempt →
      (requestGo responses maxRetries fuel attempt reauths lastExn).reauths
        = reauths := by
  intro fuel
  induction fuel with
  | zero =>
    intro attempt r l h
    unfold requestGo
    cases l <;> rfl
  | succ n ih =>
    intro attempt r l h
    have hne : attempt ≠ 0 := by omega
    unfold requestGo
    cases hresp : responses attempt with
    | status code =>
      dsimp only
      have hcond : (decide (code = 401) && decide (attempt = 0)) = false := by
        simp [hne]
      rw [hcond]
      simp only [Bool.false_eq_true, if_false]
      split
      · split
        · exact ih (attempt + 1) r _ (by omega)
        · rfl
      · rfl
    | exn msg =>
      dsimp only
      split
      · exact ih (attempt + 1) r _ (by omega)
      · rfl


/-- The retry loop makes at most `max_retries` attempts. -/
theorem requestGo_attempts_le (responses : Nat → ReqOutcome)
    (maxRetries : Nat) :
    ∀ fuel attempt reauths lastExn, fuel + attempt = maxRetries →
      (requestGo responses maxRetries fuel attempt reauths lastExn).attempts
        ≤ maxRetries := by
  intro fuel
  induction fuel with
  | zero =>
    intro attempt r l hinv
    unfold requestGo
    cases l <;> simp
  | succ n ih =>
    intro attempt r l hinv
    unfold requestGo
    cases hresp : responses attempt with
    | status code =>
      dsimp only
      split
      · exact ih (attempt + 1) (r + 1) l (by omega)
      · split
        · split
          · exact ih (attempt + 1) r _ (by omega)
          · simp
            omega
        · simp
          omega
    | exn msg =>
      dsimp only
      split
      · exact ih (attempt + 1) r _ (by omega)
      · simp
        omega

/-- Exactly when the first attempt yields a 401 (and at least one attempt is
configured), `request` re-authenticates, and then exactly once. -/
theorem request_reauths_char (responses : Nat → ReqOutcome) (maxRetries : Nat) :
    (NexusAPIClient.request responses maxRetries).reauths =
      if 1 ≤ maxRetries ∧ responses 0 = .status 401 then 1 else 0 := by
  unfold NexusAPIClient.request
  cases hm : maxRetries with
  | zero =>
    unfold requestGo
    simp
  | succ m =>
    unfold requestGo
    cases hresp : responses 0 with
    | status code =>
      dsimp only
      by_cases hc : code = 401
      · subst hc
        have h1 : (decide ((401 : Nat) = 401) && decide ((0 : Nat) = 0)) = true := by
          decide
        rw [h1]
        simp only [if_true]
        rw [requestGo_reauths_stable responses (m + 1) m (0 + 1) (0 + 1) none
          (by omega)]
        have h2 : 1 ≤ m + 1 := by omega
        simp [h2]
      · have hrhs : (if 1 ≤ m + 1 ∧ ReqOutcome.status code = ReqOutcome.status 401
            then 1 else 0) = 0 := by simp [hc]
        rw [hrhs]
        have hcond : (decide (code = 401) && decide ((0 : Nat) = 0)) = false := by
          simp [hc]
        rw [hcond]
        simp only [Bool.false_eq_true, if_false]
        split
        · split
          · exact requestGo_reauths_stable responses (m + 1) m (0 + 1) 0 _ (by omega)
          · rfl
        · rfl
    | exn msg =>
      dsimp only
      have hrhs : (if 1 ≤ m + 1 ∧ ReqOutcome.exn msg = ReqOutcome.status 401
          then 1 else 0) = 0 := by simp
      rw [hrhs]
      split
      · exact requestGo_reauths_stable responses (m + 1) m (0 + 1) 0 _ (by omega)
      · rfl

/-- Whether one attempt outcome makes the attempt fail: an error status
(raised by `raise_for_status`) or an exception. -/
def failedAttempt : ReqOutcome → Bool
  | .status c => isErrorStatus c
  | .exn _ => true

/-- The exception message a failed attempt produces. -/
def errText : ReqOutcome → String
  | .status c => statusErrMsg c
  | .exn m => m

/-- When every remaining attempt fails, the loop raises the exception of the
final attempt. -/
theorem requestGo_all_fail (responses : Nat → ReqOutcome) (maxRetries : Nat)
    (hf : ∀ i, i < maxRetries → failedAttempt (responses i) = true) :
    ∀ fuel attempt reauths lastExn, fuel + attempt = maxRetries → 1 ≤ fuel →
      1 ≤ attempt →
      (requestGo responses maxRetries fuel attempt reauths lastExn).result
        = .raised (errText (responses (maxRetries - 1))) := by
  intro fuel
  induction fuel with
  | zero =>
    intro attempt r l hinv hfuel hatt
    omega
  | succ n ih =>
    intro attempt r l hinv hfuel hatt
    have hfail : failedAttempt (responses attempt) = true := hf attempt (by omega)
    unfold requestGo
    cases hresp : responses attempt with
    | status code =>
      dsimp only
      rw [hresp] at hfail
      have herr : isErrorStatus code = true := hfail
      have hcond : (decide (code = 401) && decide (attempt = 0)) = false := by
        have : attempt ≠ 0 := by omega
        simp [this]
      rw [hcond]
      simp only [Bool.false_eq_true, if_false, herr, if_true]
      by_cases hlast : attempt < maxRetries - 1
      · rw [if_pos hlast]
        exact ih (attempt + 1) r _ (by omega) (by omega) (by omega)
      · rw [if_neg hlast]
        have hidx : attempt = maxRetries - 1 := by omega
        rw [hidx] at hresp
        rw [hresp]
        rfl
    | exn msg =>
      dsimp only
      by_cases hlast : attempt < maxRetries - 1
      · rw [if_pos hlast]
        exact ih (attempt + 1) r _ (by omega) (by omega) (by omega)
      · rw [if_neg hlast]
        have hidx : attempt = maxRetries - 1 := by omega
        rw [hidx] at hresp
        rw [hresp]
        rfl

/-- When every attempt fails, `request` raises the exception of the final
attempt (a first-attempt 401 needs a second configured attempt, since the
401 consumes one attempt for re-authentication without recording an
exception). -/
theorem request_all_fail (responses : Nat → ReqOutcome) (maxRetries : Nat)
    (hmax : 1 ≤ maxRetries)
    (hf : ∀ i, i < maxRetries → failedAttempt (responses i) = true)
    (h401 : responses 0 = .status 401 → 2 ≤ maxRetries) :
    (NexusAPIClient.request responses maxRetries).result
      = .raised (errText (responses (maxRetries - 1))) := by
  unfold NexusAPIClient.request
  cases hm : maxRetries with
  | zero => omega
  | succ m =>
    have hfail : failedAttempt (responses 0) = true := hf 0 (by omega)
    unfold requestGo
    cases hresp : responses 0 with
    | status code =>
      dsimp only
      rw [hresp] at hfail
      have herr : isErrorStatus code = true := hfail
      by_cases hc : code = 401
      · subst hc
        have h2 : 2 ≤ m + 1 := by
          have := h401 hresp
          omega
        have h1 : (decide ((401 : Nat) = 401) && decide ((0 : Nat) = 0)) = true := by
          decide
        rw [h1]
        simp only [if_true]
        exact requestGo_all_fail responses (m + 1)
          (by rw [hm] at hf; exact hf) m (0 + 1) (0 + 1) none
          (by omega) (by omega) (by omega)
      · have hcond : (decide (code = 401) && decide ((0 : Nat) = 0)) = false := by
          simp [hc]
        rw [hcond]
        simp only [Bool.false_eq_true, if_false, herr, if_true]
        by_cases hlast : (0 : Nat) < m + 1 - 1
        · rw [if_pos hlast]
          exact requestGo_all_fail responses (m + 1)
            (by rw [hm] at hf; exact hf) m (0 + 1) 0 _
            (by omega) (by omega) (by omega)
        · rw [if_neg hlast]
          have hm0 : m = 0 := by omega
          subst hm0
          rw [hresp]
          rfl
    | exn msg =>
      dsimp only
      by_cases hlast : (0 : Nat) < m + 1 - 1
      · rw [if_pos hlast]
        exact requestGo_all_fail responses (m + 1)
          (by rw [hm] at hf; exact hf) m (0 + 1) 0 _
          (by omega) (by omega) (by omega)
      · rw [if_neg hlast]
        have hm0 : m = 0 := by omega
        subst hm0
        rw [hresp]
        rfl

/-- C8 (amended): re-authentication happens exactly once when the first
attempt yields a 401 and never otherwise — a 401 on a later attempt is
handled like any other HTTP error; at most the configured number of attempts
is made; and when every attempt fails, the exception of the final attempt is
the one raised. -/
theorem C8_retry_reauth (responses : Nat → ReqOutcome) (maxRetries : Nat) :
    ((NexusAPIClient.request responses maxRetries).reauths =
      if 1 ≤ maxRetries ∧ responses 0 = .status 401 then 1 else 0) ∧
    (NexusAPIClient.request responses maxRetries).attempts ≤ maxRetries ∧
    (1 ≤ maxRetries →
      (∀ i, i < maxRetries → failedAttempt (responses i) = true) →
      (responses 0 = .status 401 → 2 ≤ maxRetries) →
      (NexusAPIClient.request responses maxRetries).result
        = .raised (errText (responses (maxRetries - 1)))) := by
  refine ⟨request_reauths_char responses maxRetries, ?_, ?_⟩
  · unfold NexusAPIClient.request
    exact requestGo_attempts_le responses maxRetries maxRetries 0 0 none (by omega)
  · intro hm hf h401
    exact request_all_fail responses maxRetries hm hf h401

/-- Witness for C8 at three always-failing attempts: no re-authentication
and the last exception raised. -/
theorem C8_witness :
    ((NexusAPIClient.request (fun _ => ReqOutcome.exn "boom") 3).reauths =
      if 1 ≤ 3 ∧ (fun _ => ReqOutcome.exn "boom" : Nat → ReqOutcome) 0
        = .status 401 then 1 else 0) ∧
    (NexusAPIClient.request (fun _ => ReqOutcome.exn "boom") 3).result
      = .raised "boom" := by
  refine ⟨(C8_retry_reauth (fun _ => ReqOutcome.exn "boom") 3).1, ?_⟩
  exact (C8_retry_reauth (fun _ => ReqOutcome.exn "boom") 3).2.2
    (by omega) (fun i _ => rfl) (fun h => by cases h)

/-- Counterexample to C8 as stated ("any 401 triggers re-authentication"):
an exception on attempt 0 followed by 401 responses; a 401 is received on a
later attempt yet no re-authentication ever happens. -/
theorem C8_counterexample :
    (fun n => if n = 0 then ReqOutcome.exn "connect error"
              else ReqOutcome.status 401 : Nat → ReqOutcome) 1
        = ReqOutcome.status 401 ∧
    (NexusAPIClient.request
      (fun n => if n = 0 then ReqOutcome.exn "connect error"
                else ReqOutcome.status 401) 3).attempts = 3 ∧
    (NexusAPIClient.request
      (fun n => if n = 0 then ReqOutcome.exn "connect error"
                else ReqOutcome.status 401) 3).reauths = 0 := by
  refine ⟨by decide, by decide, by decide⟩


/-- A list without duplicates on which a predicate holds at exactly one
member has predicate count one. -/
theorem countP_true_unique {α : Type} (g : α → Bool) :
    ∀ (ks : List α) (m : α), ks.Nodup → m ∈ ks → g m = true →
      (∀ k, k ∈ ks → k ≠ m → g k = false) → ks.countP g = 1 := by
  intro ks
  induction ks with
  | nil =>
    intro m _ hm
    cases hm
  | cons a as ih =>
    intro m hnd hm hgm hothers
    rw [List.countP_cons]
    by_cases ha : a = m
    · subst ha
      rw [hgm]
      simp only [if_true]
      have hzero : as.countP g = 0 := by
        rw [List.countP_eq_zero]
        intro k hk
        have hkne : k ≠ a := by
          intro hEq
          subst hEq
          exact (List.nodup_cons.mp hnd).1 hk
        simp [hothers k (List.mem_cons_of_mem a hk) hkne]
      rw [hzero]
    · have hga : g a = false := hothers a (List.mem_cons_self a as) ha
      rw [hga]
      simp only [Bool.false_eq_true, if_false]
      have hm' : m ∈ as := by
        cases hm with
        | head => exact absurd rfl ha
        | tail _ h => exact h
      have := ih m (List.nodup_cons.mp hnd).2 hm' hgm
        (fun k hk hkne => hothers k (List.mem_cons_of_mem a hk) hkne)
      omega

/-- An emitted operation carries the path it was emitted for. -/
theorem emitOp_path (p : String) (item : PathItem) (m : String)
    (o : ListedOperation) (h : emitOp p item m = some o) : o.path = p := by
  unfold emitOp at h
  cases hlk : item.ops.lookup m with
  | none =>
    rw [hlk] at h
    cases h
  | some obj =>
    rw [hlk] at h
    cases h
    rfl

/-- An emitted operation carries the upper-cased method key it was emitted
for. -/
theorem emitOp_method (p : String) (item : PathItem) (m : String)
    (o : ListedOperation) (h : emitOp p item m = some o) :
    o.method = pyUpper m := by
  unfold emitOp at h
  cases hlk : item.ops.lookup m with
  | none =>
    rw [hlk] at h
    cases h
  | some obj =>
    rw [hlk] at h
    cases h
    rfl

/-- Within one path item, a present method key yields exactly one emitted
operation with that path and upper-cased method. -/
theorem countP_emit_eq_one (p : String) (item : PathItem) (m : String)
    (obj : OperationObj) (hm : m ∈ listedMethodKeys)
    (hobj : item.ops.lookup m = some obj) :
    (listedMethodKeys.filterMap (emitOp p item)).countP
      (fun o => o.path == p && o.method == pyUpper m) = 1 := by
  rw [List.countP_filterMap]
  apply countP_true_unique _ listedMethodKeys m (by decide) hm
  · unfold emitOp
    rw [hobj]
    simp
  · intro k hk hkne
    have hinj : ∀ k1, k1 ∈ listedMethodKeys → ∀ k2, k2 ∈ listedMethodKeys →
        k1 ≠ k2 → pyUpper k1 ≠ pyUpper k2 := by decide
    have hup : pyUpper k ≠ pyUpper m := hinj k hk m hm hkne
    unfold emitOp
    cases hlk : item.ops.lookup k with
    | none => rfl
    | some o2 =>
      simp only [Option.map_some, Option.getD_some]
      have hb : (pyUpper k == pyUpper m) = false := by
        rw [beq_eq_false_iff_ne]
        exact hup
      simp [hb]

/-- A path item emits no operation for a different path. -/
theorem countP_emit_other_path (p q : String) (item : PathItem) (m : String)
    (hne : q ≠ p) :
    (listedMethodKeys.filterMap (emitOp q item)).countP
      (fun o => o.path == p && o.method == pyUpper m) = 0 := by
  rw [List.countP_eq_zero]
  intro o ho
  rcases List.mem_filterMap.mp ho with ⟨k, _, hemit⟩
  have hp : o.path = q := emitOp_path q item k o hemit
  have hb : (o.path == p) = false := by
    rw [beq_eq_false_iff_ne, hp]
    exact hne
  simp [hb]


/-- C9 (amended): for every OpenAPI document (paths with distinct keys), the
catalog builder emits exactly one Operation per (path, method) pair whose
method key is present and in \x7bget, post, put, delete, patch, head,
options\x7d — not just the five the claim lists — with a missing operationId
synthesized deterministically as method_path, and every emitted Operation's
method comes from that key list. -/
theorem C9_one_op_per_pair (paths : List (String × PathItem))
    (hnd : (paths.map Prod.fst).Nodup) (p : String) (item : PathItem)
    (m : String) (obj : OperationObj) (hmem : (p, item) ∈ paths)
    (hm : m ∈ listedMethodKeys) (hobj : item.ops.lookup m = some obj) :
    (list_operations paths).countP
      (fun o => o.path == p && o.method == pyUpper m) = 1 ∧
    { method := pyUpper m, path := p,
      operation_id := obj.operationId.getD (m ++ "_" ++ p),
      summary := obj.summary.getD "",
      description := obj.description.getD "",
      requestBody := obj.requestBody } ∈ list_operations paths ∧
    (∀ o, o ∈ list_operations paths →
      o.method ∈ listedMethodKeys.map pyUpper) := by
  refine ⟨?_, ?_, ?_⟩
  · unfold list_operations
    rw [List.countP_flatten]
    induction paths with
    | nil => cases hmem
    | cons hd rest ih =>
      rw [List.map_cons, List.map_cons, List.sum_cons]
      cases hmem with
      | head =>
        rw [countP_emit_eq_one p item m obj hm hobj]
        have hrest : ∀ l ∈ rest.map
            (fun pi => listedMethodKeys.filterMap (emitOp pi.1 pi.2)),
            l.countP (fun o => o.path == p && o.method == pyUpper m) = 0 := by
          intro l hl
          rcases List.mem_map.mp hl with ⟨pi2, hpi2, rfl⟩
          apply countP_emit_other_path
          intro hEq
          have hp_in : p ∈ rest.map Prod.fst := by
            rw [← hEq]
            exact List.mem_map.mpr ⟨pi2, hpi2, rfl⟩
          rw [List.map_cons] at hnd
          exact (List.nodup_cons.mp hnd).1 hp_in
        have hz : ((rest.map
            (fun pi => listedMethodKeys.filterMap (emitOp pi.1 pi.2))).map
            (List.countP (fun o => o.path == p && o.method == pyUpper m))).sum
            = 0 := by
          rw [List.sum_eq_zero]
          intro x hx
          rcases List.mem_map.mp hx with ⟨l, hl, rfl⟩
          exact hrest l hl
        omega
      | tail _ hmem' =>
        rw [List.map_cons] at hnd
        have hq : hd.1 ≠ p := by
          intro hEq
          apply (List.nodup_cons.mp hnd).1
          rw [hEq]
          exact List.mem_map.mpr ⟨(p, item), hmem', rfl⟩
        rw [countP_emit_other_path p hd.1 hd.2 m hq]
        have := ih (List.nodup_cons.mp hnd).2 hmem'
        omega
  · apply List.mem_flatten_of_mem
      (List.mem_map.mpr ⟨(p, item), hmem, rfl⟩)
    apply List.mem_filterMap.mpr
    refine ⟨m, hm, ?_⟩
    unfold emitOp
    rw [hobj]
  · intro o ho
    rcases List.mem_flatten.mp ho with ⟨l, hl, hol⟩
    rcases List.mem_map.mp hl with ⟨pi2, _, rfl⟩
    rcases List.mem_filterMap.mp hol with ⟨k, hk, hemit⟩
    exact List.mem_map.mpr
      ⟨k, hk, (emitOp_method pi2.1 pi2.2 k o hemit).symm⟩

/-- Witness for C9 on a one-path, one-method document. -/
theorem C9_witness :
    (list_operations [("/fabrics",
      { ops := [("get",
        { operationId := some "getFabrics", summary := none,
          description := none, requestBody := none })] })]).countP
      (fun o => o.path == "/fabrics" && o.method == pyUpper "get") = 1 ∧
    { method := "GET", path := "/fabrics", operation_id := "getFabrics",
      summary := "", description := "", requestBody := none } ∈
      list_operations [("/fabrics",
        { ops := [("get",
          { operationId := some "getFabrics", summary := none,
            description := none, requestBody := none })] })] :=
  ⟨(C9_one_op_per_pair _ (by decide) "/fabrics"
      { ops := [("get",
        { operationId := some "getFabrics", summary := none,
          description := none, requestBody := none })] }
      "get"
      { operationId := some "getFabrics", summary := none,
        description := none, requestBody := none }
      (by decide) (by decide) (by decide)).1,
   (C9_one_op_per_pair _ (by decide) "/fabrics"
      { ops := [("get",
        { operationId := some "getFabrics", summary := none,
          description := none, requestBody := none })] }
      "get"
      { operationId := some "getFabrics", summary := none,
        description := none, requestBody := none }
      (by decide) (by decide) (by decide)).2.1⟩

/-- Counterexample to C9 as stated: a document whose only operation is a
`head` operation yields one emitted Operation with method HEAD, which is not
among \x7bget, post, put, delete, patch\x7d (and which `count_endpoints`
does not count, so the two catalog functions disagree). -/
theorem C9_counterexample :
    list_operations [("/x",
      { ops := [("head",
        { operationId := none, summary := none, description := none,
          requestBody := none })] })] =
      [{ method := "HEAD", path := "/x", operation_id := "head_/x",
         summary := "", description := "", requestBody := none }] ∧
    ¬ ("HEAD" ∈ countedMethodKeys.map pyUpper) ∧
    count_endpoints_total [("/x",
      { ops := [("head",
        { operationId := none, summary := none, description := none,
          requestBody := none })] })] = 0 := by
  refine ⟨by decide, by decide, by decide⟩


/-- Every group the creation loop adds has a key that no pre-existing group
has: existing groups are never re-created, so their membership and
description are untouched. -/
theorem createGroups_fresh_keys (existing : List RGroup) :
    ∀ (grouped : List (String × GroupData)) (created : List RGroup) (cnt : Nat),
      (∀ g, g ∈ created → ∀ h2, h2 ∈ existing → h2.group_key ≠ g.group_key) →
      ∀ g, g ∈ (createGroups existing grouped created cnt).1 →
        ∀ h2, h2 ∈ existing → h2.group_key ≠ g.group_key := by
  intro grouped
  induction grouped with
  | nil =>
    intro created cnt hinv g hg
    exact hinv g hg
  | cons kd rest ih =>
    obtain ⟨key, d⟩ := kd
    intro created cnt hinv g hg
    unfold createGroups at hg
    by_cases hex : ((existing ++ created).any
        (fun g2 => g2.group_key = key)) = true
    · rw [if_pos hex] at hg
      exact ih created cnt hinv g hg
    · rw [if_neg hex] at hg
      apply ih (created ++ [mkDefaultGroup key d]) (cnt + 1) ?_ g hg
      intro g2 hg2 h2 h2mem
      rcases List.mem_append.mp hg2 with hold | hnew
      · exact hinv g2 hold h2 h2mem
      · have hkey : g2.group_key = key := by
          cases hnew with
          | head => rfl
          | tail _ hh => cases hh
        rw [hkey]
        have hall := List.any_eq_false.mp (Bool.not_eq_true _ |>.mp hex)
        have := hall h2 (List.mem_append.mpr (Or.inl h2mem))
        simpa using this

/-- C10 (amended): when not forced, generation is skipped wholesale exactly
when any group at all exists — a group in one namespace suppresses
generation for every namespace, not per-namespace as claimed; when nothing
exists, unforced generation behaves like forced generation; and whenever
generation runs, the pre-existing groups survive unchanged and every created
group carries a key no existing group has, so hand-edited groups are never
modified or overwritten. -/
theorem C10_generation (existing : List RGroup) (endpoints : List Endpoint)
    (force : Bool) :
    (force = false → existing ≠ [] →
      generate_default_groups existing endpoints force =
        { groups := existing, created := 0 }) ∧
    generate_default_groups [] endpoints false =
      generate_default_groups [] endpoints true ∧
    (∃ rest, (generate_default_groups existing endpoints force).groups
        = existing ++ rest ∧
      ∀ g, g ∈ rest → ∀ h2, h2 ∈ existing → h2.group_key ≠ g.group_key) := by
  refine ⟨?_, ?_, ?_⟩
  · intro hf hne
    subst hf
    cases existing with
    | nil => exact absurd rfl hne
    | cons a as =>
      unfold generate_default_groups
      rfl
  · unfold generate_default_groups
    rfl
  · unfold generate_default_groups
    by_cases hskip : (!force && !existing.isEmpty) = true
    · rw [if_pos hskip]
      exact ⟨[], by simp, by simp⟩
    · rw [if_neg hskip]
      refine ⟨(createGroups existing (groupEndpoints endpoints) [] 0).1,
        rfl, ?_⟩
      exact createGroups_fresh_keys existing (groupEndpoints endpoints) [] 0
        (fun g hg => absurd hg (List.not_mem_nil g))

/-- Witness for C10: one existing group in namespace A makes an unforced run
over a namespace-B endpoint a no-op. -/
theorem C10_witness :
    generate_default_groups
      [{ group_key := "A_x", display_name := "X (A)",
         description := "hand-curated", is_enabled := true, is_custom := true,
         members := [] }]
      [{ operation_id := "getY", api_name := "B", http_method := "GET",
         path := "/y/z" }] false =
      { groups :=
          [{ group_key := "A_x", display_name := "X (A)",
             description := "hand-curated", is_enabled := true,
             is_custom := true, members := [] }],
        created := 0 } :=
  (C10_generation
    [{ group_key := "A_x", display_name := "X (A)",
       description := "hand-curated", is_enabled := true, is_custom := true,
       members := [] }]
    [{ operation_id := "getY", api_name := "B", http_method := "GET",
       path := "/y/z" }] false).1 rfl (by decide)

/-- Counterexample to C10 as stated: namespace B has no group, yet unforced
generation over a B endpoint is skipped (created = 0, no B_y group) because
a group exists in namespace A — the same endpoint generates a group once the
table is empty. -/
theorem C10_counterexample :
    groupKeyOf
      { operation_id := "getY", api_name := "B",
        http_method := "GET", path := "/y/z" } = "B_y" ∧
    generate_default_groups
      [{ group_key := "A_x", display_name := "X (A)",
         description := "hand-curated", is_enabled := true, is_custom := true,
         members := [] }]
      [{ operation_id := "getY", api_name := "B", http_method := "GET",
         path := "/y/z" }] false =
      { groups :=
          [{ group_key := "A_x", display_name := "X (A)",
             description := "hand-curated", is_enabled := true,
             is_custom := true, members := [] }],
        created := 0 } ∧
    (generate_default_groups []
      [{ operation_id := "getY", api_name := "B", http_method := "GET",
         path := "/y/z" }] false).created = 1 := by
  refine ⟨by decide, by decide, by decide⟩

end NexusMCP
